import Mathlib

/-!
Verification of the `average` library's combinator source (`src/macros.rs`).

The file models the two exported combinators:

* `assert_almost_eq!(a, b, prec)` (lines 6–16): computes `diff = (a - b).abs()`
  and panics exactly when `diff > prec`.
* `concatenate!(Name, stat1, Est1, …)` (lines 77–125): generates a struct with
  one field per declared `(statistic, estimator)` pair, with `new`, `add`,
  one forwarding accessor per statistic, a `Default` impl and a
  `FromIterator<f64>` impl.

Floating-point values are modelled as NaN, signed infinity, or an exact
rational (rounding of finite arithmetic is idealised away; NaN propagation
and comparison semantics, which the claims are about, are kept exact).
-/

namespace Average

/-- Model of an `f64` value: NaN, a signed infinity (`true` = `+∞`), or a
finite value represented exactly as a rational. -/
inductive F64 where
  | nan : F64
  | inf : Bool → F64
  | fin : ℚ → F64
deriving DecidableEq

/-- IEEE-style subtraction on the model: NaN propagates, `∞ - ∞` of equal
signs is NaN, infinities dominate finite operands, finite values subtract
exactly. -/
def F64.sub : F64 → F64 → F64
  | .nan, _ => .nan
  | _, .nan => .nan
  | .inf s, .inf t => if s = t then .nan else .inf s
  | .inf s, .fin _ => .inf s
  | .fin _, .inf s => .inf (!s)
  | .fin p, .fin q => .fin (p - q)

/-- IEEE-style absolute value on the model: `abs NaN = NaN`, `abs ±∞ = +∞`. -/
def F64.abs : F64 → F64
  | .nan => .nan
  | .inf _ => .inf true
  | .fin q => .fin |q|

/-- IEEE-style strict greater-than on the model: any comparison involving NaN
is `false`; `+∞` is above everything else, `-∞` below everything else. -/
def F64.gt : F64 → F64 → Bool
  | .nan, _ => false
  | _, .nan => false
  | .inf s, .inf t => s && !t
  | .inf s, .fin _ => s
  | .fin _, .inf t => !t
  | .fin p, .fin q => decide (q < p)

/-- The panic condition of `assert_almost_eq!(a, b, prec)`
(src/macros.rs lines 6–16): it computes `diff = (a - b).abs()` and panics
if and only if `diff > prec`. -/
def assertAlmostEqPanics (a b prec : F64) : Bool :=
  F64.gt (F64.abs (F64.sub a b)) prec

/-- Claim C10: `assert_almost_eq!(a, b, prec)` panics if and only if
`(a - b).abs() > prec` under strict comparison; it does not panic when the
absolute difference equals `prec` exactly, and it never panics when `a` or
`b` is NaN, because the NaN difference compares `false` against `prec`. -/
theorem assert_almost_eq_panic_condition :
    (∀ a b prec : F64,
      assertAlmostEqPanics a b prec = F64.gt (F64.abs (F64.sub a b)) prec)
    ∧ (∀ p q : ℚ,
      assertAlmostEqPanics (F64.fin p) (F64.fin q) (F64.fin |p - q|) = false)
    ∧ (∀ b prec : F64, assertAlmostEqPanics F64.nan b prec = false)
    ∧ (∀ a prec : F64, assertAlmostEqPanics a F64.nan prec = false) := by
  refine ⟨fun _ _ _ => rfl, fun p q => ?_, fun b prec => ?_, fun a prec => ?_⟩
  · simp [assertAlmostEqPanics, F64.sub, F64.abs, F64.gt]
  · cases b <;> cases prec <;> rfl
  · cases a <;> cases prec <;> rfl

/-- Modelled from the spec: the sub-estimator types (Min, Max, Mean, …) are
not part of the given source.  The `concatenate!` combinator's documentation
requires each `$estimator` to have an `add` method taking an `f64`, a
statistic accessor of the declared name returning `f64`, and a `Default`
(empty-state) implementation; the spec's Estimator capability additionally
reports a count of observations seen.  `σ` is the estimator's state type,
`default` its `Default::default()` state, `stat` the accessor whose name is
the declared statistic name. -/
structure Estimator where
  σ : Type
  default : σ
  add : σ → F64 → σ
  stat : σ → F64
  count : σ → Nat

/-- Running a single estimator standalone over a finite sequence of
observations: start from its `Default` state and `add` each in turn. -/
def Estimator.run (e : Estimator) (xs : List F64) : e.σ :=
  xs.foldl e.add e.default

/-- The state of a composite generated by `concatenate!` from `n` declared
`(statistic, estimator)` pairs: one sub-estimator field per declared pair
(the field of index `i` has the state type of estimator `i`). -/
def CState {n : Nat} (E : Fin n → Estimator) : Type :=
  (i : Fin n) → (E i).σ

namespace Composite

variable {n : Nat}

/-- The generated `new()` (src/macros.rs lines 85–92): every field is
initialised with `::core::default::Default::default()`. -/
def new (E : Fin n → Estimator) : CState E :=
  fun i => (E i).default

/-- One statement `self.$statistic.add(x);` of the generated `add` body:
field `i` is replaced by the result of its own `add`, all other fields are
untouched. -/
def addStep (E : Fin n → Estimator) (x : F64) (s : CState E) (i : Fin n) :
    CState E :=
  Function.update s i ((E i).add (s i) x)

/-- The generated `add(&mut self, x: f64)` (src/macros.rs lines 94–98): the
statements `self.$statistic.add(x);` executed sequentially, one per declared
pair, in declaration order. -/
def add (E : Fin n → Estimator) (s : CState E) (x : F64) : CState E :=
  (List.finRange n).foldl (addStep E x) s

/-- The generated accessor `$statistic` (src/macros.rs lines 100–104): its
body is `self.$statistic.$statistic()`, the same-named accessor of the
same-named field. -/
def stat (E : Fin n → Estimator) (s : CState E) (i : Fin n) : F64 :=
  (E i).stat (s i)

/-- The generated accessor as a state-passing call: it takes `&self`, its
body is the single pure call `self.$statistic.$statistic()` with no
assignment, so it returns a value and the unchanged state. -/
def statCall (E : Fin n → Estimator) (s : CState E) (i : Fin n) :
    F64 × CState E :=
  (stat E s i, s)

/-- The generated `Default` impl (src/macros.rs lines 107–111): its body is
`$name::new()`. -/
def default (E : Fin n → Estimator) : CState E :=
  new E

/-- The loop body of the generated `from_iter` (src/macros.rs lines 113–123):
`for i in iter { e.add(i); }` starting from a given state. -/
def fromIterLoop (E : Fin n → Estimator) (e : CState E) :
    List F64 → CState E
  | [] => e
  | x :: xs => fromIterLoop E (add E e x) xs

/-- The generated `FromIterator<f64>` impl (src/macros.rs lines 113–123):
`let mut e = $name::new(); for i in iter { e.add(i); } e`. -/
def from_iter (E : Fin n → Estimator) (xs : List F64) : CState E :=
  fromIterLoop E (new E) xs

/-- The spec's description of bulk construction: a fold of `add` over the
sequence, starting from the empty composite. -/
def fromSequenceSpec (E : Fin n → Estimator) (xs : List F64) : CState E :=
  xs.foldl (add E) (new E)

/-- Adding a whole sequence of observations to an existing composite state,
one at a time. -/
def addAll (E : Fin n → Estimator) (s : CState E) (xs : List F64) : CState E :=
  xs.foldl (add E) s

theorem foldl_addStep_not_mem (E : Fin n → Estimator) (x : F64)
    (l : List (Fin n)) (s : CState E) (i : Fin n) (hi : i ∉ l) :
    l.foldl (addStep E x) s i = s i := by
  induction l generalizing s with
  | nil => rfl
  | cons j t ih =>
    have hij : i ≠ j := fun h => hi (h ▸ List.mem_cons_self j t)
    have hit : i ∉ t := fun h => hi (List.mem_cons_of_mem j h)
    simp only [List.foldl_cons]
    rw [ih _ hit]
    exact Function.update_noteq hij _ s

theorem foldl_addStep_mem (E : Fin n → Estimator) (x : F64)
    (l : List (Fin n)) (s : CState E) (i : Fin n) (hl : l.Nodup)
    (hi : i ∈ l) : l.foldl (addStep E x) s i = (E i).add (s i) x := by
  induction l generalizing s with
  | nil => cases hi
  | cons j t ih =>
    have hjt : j ∉ t := (List.nodup_cons.mp hl).1
    have htn : t.Nodup := (List.nodup_cons.mp hl).2
    simp only [List.foldl_cons]
    rcases List.mem_cons.mp hi with h | h
    · subst h
      rw [foldl_addStep_not_mem E x t _ i hjt]
      exact Function.update_same i _ s
    · have hij : i ≠ j := fun he => hjt (he ▸ h)
      rw [ih _ htn h]
      congr 1
      exact Function.update_noteq hij _ s

theorem add_apply (E : Fin n → Estimator) (s : CState E) (x : F64)
    (i : Fin n) : add E s x i = (E i).add (s i) x :=
  foldl_addStep_mem E x (List.finRange n) s i (List.nodup_finRange n)
    (List.mem_finRange i)

theorem addAll_apply (E : Fin n → Estimator) (s : CState E) (xs : List F64)
    (i : Fin n) : addAll E s xs i = xs.foldl (E i).add (s i) := by
  induction xs generalizing s with
  | nil => rfl
  | cons x t ih =>
    simp only [addAll, List.foldl_cons] at ih ⊢
    rw [ih (add E s x), add_apply]

theorem fromIterLoop_eq_foldl (E : Fin n → Estimator) (e : CState E)
    (xs : List F64) : fromIterLoop E e xs = xs.foldl (add E) e := by
  induction xs generalizing e with
  | nil => rfl
  | cons x t ih => simp only [fromIterLoop, List.foldl_cons, ih]

theorem from_iter_apply (E : Fin n → Estimator) (xs : List F64) (i : Fin n) :
    from_iter E xs i = (E i).run xs := by
  rw [from_iter, fromIterLoop_eq_foldl]
  exact addAll_apply E (new E) xs i

end Composite

/-- A client interaction with a composite: either a call to the generated
`add` with an observation, or a call to the generated accessor of the `i`-th
declared statistic. -/
inductive Event (n : Nat) where
  | obs : F64 → Event n
  | query : Fin n → Event n

/-- The observations contained in a trace of interactions, in order
(accessor calls carry none). -/
def Event.observations {n : Nat} : List (Event n) → List F64
  | [] => []
  | Event.obs x :: es => x :: Event.observations es
  | Event.query _ :: es => Event.observations es

/-- Running a trace of interactions against a composite state: `add` calls
go through the generated `add`, accessor calls go through the generated
accessor in its state-passing form. -/
def Composite.runEvents {n : Nat} (E : Fin n → Estimator) (s : CState E) :
    List (Event n) → CState E
  | [] => s
  | Event.obs x :: es => Composite.runEvents E (Composite.add E s x) es
  | Event.query i :: es =>
      Composite.runEvents E (Composite.statCall E s i).2 es

/-- The kinds of items a `concatenate!`-style combinator could emit for a
composite of `n` declared `(statistic, estimator)` pairs. -/
inductive GenItem (n : Nat) where
  | structDef : GenItem n
  | newFn : GenItem n
  | addFn : GenItem n
  | accessor : Fin n → GenItem n
  | defaultImpl : GenItem n
  | fromIterImpl : GenItem n
  | mergeFn : GenItem n
deriving DecidableEq

/-- The items one expansion of `concatenate!` emits, in source order
(src/macros.rs lines 77–125): the struct definition (lines 79–83),
`new` (85–92), `add` (94–98), one accessor per declared statistic (100–104),
the `Default` impl (107–111) and the `FromIterator<f64>` impl (113–123).
The macro body contains no merge item. -/
def concatenateItems (n : Nat) : List (GenItem n) :=
  [GenItem.structDef, GenItem.newFn, GenItem.addFn]
    ++ (List.finRange n).map GenItem.accessor
    ++ [GenItem.defaultImpl, GenItem.fromIterImpl]

/-- Modelled from the spec: a minimal concrete estimator satisfying the
Estimator capability, used to instantiate the composite theorems at a
concrete input.  It reports the count of observations seen, its statistic
being that count as a finite value. -/
def countingEstimator : Estimator where
  σ := Nat
  default := 0
  add := fun s _ => s + 1
  stat := fun s => F64.fin s
  count := fun s => s

/-- Claim C1 (counterexample): for the two-statistic composite of the
macro's own `MinMax` doc example, the expansion of `concatenate!` contains
no merge item, so no merge operation is defined for the composite. -/
theorem concatenate_merge_missing_cex :
    GenItem.mergeFn ∉ concatenateItems 2 := by
  decide

/-- Claim C1 (amended): `concatenate!` generates the struct, `new`, `add`,
one accessor per declared statistic, the `Default` impl and the
`FromIterator<f64>` impl for the composite, but no merge operation; the
composite therefore satisfies the Estimator capability except for merge. -/
theorem concatenate_generated_items (n : Nat) :
    GenItem.mergeFn ∉ concatenateItems n
    ∧ (∀ i : Fin n, GenItem.accessor i ∈ concatenateItems n)
    ∧ GenItem.structDef ∈ concatenateItems n
    ∧ GenItem.newFn ∈ concatenateItems n
    ∧ GenItem.addFn ∈ concatenateItems n
    ∧ GenItem.defaultImpl ∈ concatenateItems n
    ∧ GenItem.fromIterImpl ∈ concatenateItems n := by
  refine ⟨?_, fun i => ?_, ?_, ?_, ?_, ?_, ?_⟩ <;>
    simp [concatenateItems, List.mem_append, List.mem_map]

/-- Claim C2: one call to the composite's generated `add(x)` updates each
declared sub-estimator field by exactly one call to that sub-estimator's own
`add(x)` on its previous state: none is skipped, none sees the observation
twice, and no field depends on any other field. -/
theorem concatenate_add_each_sub_once (n : Nat) (E : Fin n → Estimator)
    (s : CState E) (x : F64) :
    Composite.add E s x = fun i => (E i).add (s i) x :=
  funext (Composite.add_apply E s x)

/-- Claim C3: every statistic the composite built from a finite sequence
reports equals what the corresponding sub-estimator reports when run
standalone over the identical sequence — no cross-contamination. -/
theorem concatenate_no_cross_contamination (n : Nat)
    (E : Fin n → Estimator) (xs : List F64) (i : Fin n) :
    Composite.stat E (Composite.from_iter E xs) i = (E i).stat ((E i).run xs) := by
  rw [Composite.stat, Composite.from_iter_apply]

/-- Claim C4: the generated `from_iter` equals the fold that starts from the
empty composite `new()` and calls `add` on each element in sequence order,
and it is equivalent to adding the observations one at a time externally. -/
theorem concatenate_from_iter_is_fold (n : Nat) (E : Fin n → Estimator)
    (xs : List F64) (x : F64) :
    Composite.from_iter E xs = Composite.fromSequenceSpec E xs
    ∧ Composite.from_iter E (xs ++ [x])
        = Composite.add E (Composite.from_iter E xs) x := by
  constructor
  · exact Composite.fromIterLoop_eq_foldl E (Composite.new E) xs
  · rw [Composite.from_iter, Composite.from_iter,
      Composite.fromIterLoop_eq_foldl, Composite.fromIterLoop_eq_foldl,
      List.foldl_append]
    rfl

/-- Claim C5: the generated `new()` puts every sub-estimator field in its
`Default` (empty) state; given that every sub-estimator's empty state has
observation count 0, every field of a freshly constructed composite has
count 0. -/
theorem concatenate_new_empty (n : Nat) (E : Fin n → Estimator)
    (h : ∀ i, (E i).count (E i).default = 0) (i : Fin n) :
    Composite.new E i = (E i).default
    ∧ (E i).count (Composite.new E i) = 0 :=
  ⟨rfl, h i⟩

/-- Witness for C5 at a concrete composite of two counting estimators. -/
theorem concatenate_new_empty_witness :
    Composite.new (fun _ : Fin 2 => countingEstimator) 0
        = countingEstimator.default
    ∧ countingEstimator.count
        (Composite.new (fun _ : Fin 2 => countingEstimator) 0) = 0 :=
  concatenate_new_empty 2 (fun _ => countingEstimator) (fun _ => rfl) 0

/-- Claim C6: the generated accessors are pure queries: each takes `&self`,
returns an `f64` determined by the current state, and leaves every
sub-estimator field unchanged — running any trace of `add` and accessor
calls leaves the same state as running the contained `add` calls alone. -/
theorem concatenate_accessors_pure (n : Nat) (E : Fin n → Estimator)
    (s : CState E) (evs : List (Event n)) :
    Composite.runEvents E s evs
        = Composite.addAll E s (Event.observations evs)
    ∧ ∀ i, Composite.statCall E s i = (Composite.stat E s i, s) := by
  refine ⟨?_, fun i => rfl⟩
  induction evs generalizing s with
  | nil => rfl
  | cons e es ih =>
    cases e with
    | obs x =>
      simp only [Composite.runEvents, Event.observations, Composite.addAll,
        List.foldl_cons]
      exact ih (Composite.add E s x)
    | query i =>
      simp only [Composite.runEvents, Event.observations]
      exact ih s

/-- Claim C7: the generated accessor of each declared statistic name returns
exactly the value of the same-named accessor of the corresponding
sub-estimator field, in every state of the composite. -/
theorem concatenate_accessor_forwards (n : Nat) (E : Fin n → Estimator)
    (s : CState E) (i : Fin n) :
    Composite.stat E s i = (E i).stat (s i) :=
  rfl

/-- Claim C8: the statistics a composite reports do not depend on the order
in which its sub-estimators are declared: a composite declaring the permuted
pairs, fed the identical sequence, reports for each statistic the same value
as the original composite reports for that statistic. -/
theorem concatenate_declaration_order_irrelevant (n : Nat)
    (E : Fin n → Estimator) (π : Fin n ≃ Fin n) (xs : List F64) (i : Fin n) :
    Composite.stat (fun j => E (π j))
        (Composite.from_iter (fun j => E (π j)) xs) i
      = Composite.stat E (Composite.from_iter E xs) (π i) := by
  rw [Composite.stat, Composite.stat, Composite.from_iter_apply,
    Composite.from_iter_apply]

/-- Claim C9: the generated `Default::default()` is exactly `new()`, and
collecting the empty sequence also yields `new()`: all three constructions
produce the same empty composite. -/
theorem concatenate_default_eq_new (n : Nat) (E : Fin n → Estimator) :
    Composite.default E = Composite.new E
    ∧ Composite.from_iter E [] = Composite.new E :=
  ⟨rfl, rfl⟩

end Average
